import Mathlib

/-!
Verification of the incident lifecycle synchronization core of
`rfaccident-report`, a Telegram/Express/MongoDB incident reporting server
(`src/server.js`) with a Leaflet dashboard client (`public/script.js`).
The server-side store is modelled as a list of JSON-like documents, the
Mongo operations (`insertOne`, `findOne`, `deleteOne`, `findOneAndUpdate`
with `$set`) as functions on that list, and the event handlers
(`bot.on('location')`, `bot.on('callback_query')`,
`app.delete('/incidents/:id')`) as pure functions from inputs and store to
results (status codes, answer texts, fan-out events, updated store).
The dashboard client's local view (Leaflet markers, incident list items,
the `displayedIncidentIds` set) and its merge / polling-reconciliation
functions are modelled structurally.
-/

/-- A JSON scalar value as stored in an incident document: strings and
numbers (JS numbers modelled as rationals; no arithmetic is performed on
them by the program, they are only stored and compared). -/
inductive JsonVal where
  | str : String → JsonVal
  | num : Rat → JsonVal
deriving DecidableEq

/-- A JSON object / MongoDB document: an association list of field names
to values.  JS object keys are unique; operations below preserve that. -/
abbrev Doc : Type := List (String × JsonVal)

/-- Read a field of a document (JS property access; `none` = undefined). -/
def Doc.getVal (d : Doc) (k : String) : Option JsonVal :=
  (d.find? (fun p => p.1 = k)).map (fun p => p.2)

/-- Mongo `$set` of a single field: overwrite it if present, append it
otherwise (the JS-object semantics of adding/overwriting a property). -/
def Doc.setVal (d : Doc) (k : String) (v : JsonVal) : Doc :=
  if d.any (fun p => p.1 = k) then
    d.map (fun p => if p.1 = k then (k, v) else p)
  else
    d ++ [(k, v)]

/-- The field names of a document. -/
def Doc.keys (d : Doc) : List String := d.map (fun p => p.1)

/-- Fan-out events emitted over the Socket.IO channel (`io.emit`). -/
inductive FanoutEvent where
  | new_incident : Doc → FanoutEvent
  | incident_updated : Doc → FanoutEvent
  | incident_deleted : String → FanoutEvent
deriving DecidableEq

/-- The `newIncident` object built in `bot.on('location')` (server.js
145-154).  Arguments are `from.id`, `from.first_name`, the location, the
group message (`forwardedMessage.message_id`, `forwardedMessage.chat.id`)
and the creation instant (`new Date()`, modelled as a number). -/
def newIncident (fromId : Rat) (firstName : String) (lat lon : Rat)
    (fwdMsgId fwdChatId : Rat) (now : Rat) : Doc :=
  [("reporter_id", .num fromId),
   ("reporter_name", .str firstName),
   ("latitude", .num lat),
   ("longitude", .num lon),
   ("status", .str "active"),
   ("telegram_message_id", .num fwdMsgId),
   ("telegram_chat_id", .num fwdChatId),
   ("timestamp", .num now)]

/-- The document as persisted by `insertOne` (which assigns `_id`) and as
emitted in the `new_incident` event (`{ ...newIncident, _id }`). -/
def insertedIncident (fromId : Rat) (firstName : String) (lat lon : Rat)
    (fwdMsgId fwdChatId : Rat) (now : Rat) (newId : String) : Doc :=
  newIncident fromId firstName lat lon fwdMsgId fwdChatId now
    ++ [("_id", .str newId)]

/-- Result of the `bot.on('location')` handler. -/
structure LocationResult where
  store : List Doc
  events : List FanoutEvent
  reporterAck : String
deriving DecidableEq

/-- The `bot.on('location')` handler (server.js 105-168), success path:
forward the location and companion message to the group (external sends,
whose returned message id / chat id are the `fwdMsgId` / `fwdChatId`
inputs), persist the new incident, acknowledge the reporter privately and
fan out a `new_incident` event.  Note the handler performs no validation
of the location whatsoever. -/
def handleLocation (store : List Doc) (fromId : Rat) (firstName : String)
    (lat lon : Rat) (fwdMsgId fwdChatId : Rat) (now : Rat)
    (newId : String) : LocationResult :=
  let inserted := insertedIncident fromId firstName lat lon fwdMsgId fwdChatId now newId
  { store := store ++ [inserted],
    events := [.new_incident inserted],
    reporterAck := "Your location has been forwarded to emergency response services." }

/-- JS `String.prototype.split('_')` on a list of characters:
`"".split` gives `[""]`, separators at the ends give empty segments. -/
def splitUnderscore : List Char → List (List Char)
  | [] => [[]]
  | c :: cs =>
      if c = '_' then [] :: splitUnderscore cs
      else
        match splitUnderscore cs with
        | [] => [[c]]
        | p :: ps => (c :: p) :: ps

/-- The status-transition decision of `bot.on('callback_query')`
(server.js 178-194): split the callback data on underscores, inspect
`parts[0]` (the action) and `parts[1]` (the type), and either produce the
new status string together with the remove-buttons flag, or reject
(`none`, the "Unknown action." early return). `parts.get? 1 = none`
models the JS `undefined` when the token has no second segment. -/
def resolveAction (data : List Char) : Option (String × Bool) :=
  let parts := splitUnderscore data
  let action := parts.get? 0
  let type := parts.get? 1
  if action = some "tow".toList then
    some ((if type = some "eagles".toList
           then "Tow Requested: Eagles 24"
           else "Tow Requested: Other"), false)
  else if action = some "scene".toList ∧ type = some "cleared".toList then
    some ("Scene Cleared", true)
  else none

/-- The group message the callback refers to: its text and its inline
keyboard (`reply_markup`; `none` = removed). -/
structure ChannelMsg where
  text : String
  reply_markup : Option Unit
deriving DecidableEq

/-- Does a stored document match the callback's message, i.e. the Mongo
filter `{ telegram_message_id: msg.message_id, telegram_chat_id:
msg.chat.id }`? -/
def matchesChannelMessage (d : Doc) (msgId chatId : Rat) : Bool :=
  d.getVal "telegram_message_id" = some (.num msgId)
    && d.getVal "telegram_chat_id" = some (.num chatId)

/-- The `$set: { status: newStatus, last_updated: new Date() }` applied by
`findOneAndUpdate`. -/
def updateStatus (d : Doc) (newStatus : String) (now : Rat) : Doc :=
  (d.setVal "status" (.str newStatus)).setVal "last_updated" (.num now)

/-- Mongo `findOneAndUpdate` with `returnDocument: 'after'`: update the
first matching document, returning the updated document (or `none`) and
the updated collection. -/
def findOneAndUpdate (store : List Doc) (msgId chatId : Rat)
    (newStatus : String) (now : Rat) : Option Doc × List Doc :=
  match store with
  | [] => (none, [])
  | d :: ds =>
      if matchesChannelMessage d msgId chatId then
        (some (updateStatus d newStatus now), updateStatus d newStatus now :: ds)
      else
        let r := findOneAndUpdate ds msgId chatId newStatus now
        (r.1, d :: r.2)

/-- Result of the `bot.on('callback_query')` handler: channel message
after the (possible) edit, store after the (possible) update, the
`answerCallbackQuery` text shown to the actor, and the fan-out events. -/
structure CallbackResult where
  msg : ChannelMsg
  store : List Doc
  answer : String
  events : List FanoutEvent
deriving DecidableEq

/-- The `bot.on('callback_query')` handler (server.js 171-227), success
path of the external calls: resolve the action token; on rejection answer
"Unknown action." and return with nothing mutated; otherwise append the
audit line to the message text, strip the keyboard iff the action was
terminal, run `findOneAndUpdate` on the store, emit `incident_updated`
only if a document matched, and answer "Status updated to: ...".
`username` is `callbackQuery.from.username` (after the `|| 'N/A'`
fallback) and `timeStr` is `new Date().toLocaleTimeString()`. -/
def handleCallback (store : List Doc) (msg : ChannelMsg)
    (msgId chatId : Rat) (data : List Char) (username : String)
    (timeStr : String) (now : Rat) : CallbackResult :=
  match resolveAction data with
  | none =>
      { msg := msg, store := store, answer := "Unknown action.", events := [] }
  | some (newStatus, removeButtons) =>
      let updatedMessageText :=
        msg.text ++ "\n\n_Status: " ++ newStatus ++ " (by @" ++ username
          ++ " at " ++ timeStr ++ ")_"
      let msg' : ChannelMsg :=
        { text := updatedMessageText,
          reply_markup := if removeButtons then none else msg.reply_markup }
      let r := findOneAndUpdate store msgId chatId newStatus now
      { msg := msg',
        store := r.2,
        answer := "Status updated to: " ++ newStatus,
        events := match r.1 with
                  | some updated => [.incident_updated updated]
                  | none => [] }

/-- Mongo `findOne({ _id })`: first document whose `_id` equals the given
id string. -/
def findOneById (store : List Doc) (idStr : String) : Option Doc :=
  store.find? (fun d => d.getVal "_id" = some (.str idStr))

/-- Mongo `deleteOne({ _id })`: remove the first matching document,
returning `deletedCount` and the remaining collection. -/
def deleteOneById : List Doc → String → Nat × List Doc
  | [], _ => (0, [])
  | d :: ds, idStr =>
      if d.getVal "_id" = some (.str idStr) then (1, ds)
      else
        let r := deleteOneById ds idStr
        (r.1, d :: r.2)

/-- Result of the `DELETE /incidents/:id` route. -/
structure DeleteResult where
  status : Nat
  message : String
  store : List Doc
  events : List FanoutEvent
deriving DecidableEq

/-- The `app.delete('/incidents/:id')` route (server.js 60-99), success
path of the backend calls: look the incident up first; 404 with no event
if absent; otherwise `deleteOne`, and if `deletedCount === 1` emit one
`incident_deleted` event with the id string and answer 200. -/
def handleDelete (store : List Doc) (idStr : String) : DeleteResult :=
  match findOneById store idStr with
  | none =>
      { status := 404, message := "Incident not found.", store := store, events := [] }
  | some _ =>
      let r := deleteOneById store idStr
      if r.1 = 1 then
        { status := 200, message := "Incident deleted successfully.",
          store := r.2, events := [.incident_deleted idStr] }
      else
        { status := 404, message := "Incident not found or already deleted.",
          store := r.2, events := [] }

/-- An incident as consumed by the dashboard client: exactly the fields
`public/script.js` reads from the JSON documents it receives. -/
structure ClientIncident where
  _id : String
  reporter_name : String
  latitude : Rat
  longitude : Rat
  status : String
  timestamp : Rat
deriving DecidableEq

/-- A Leaflet marker as the client keeps it: its position (set once at
creation) and the data rendered into its popup (rewritten by
`setPopupContent`). -/
structure Marker where
  lat : Rat
  lon : Rat
  popupId : String
  popupReporter : String
  popupStatus : String
  popupLat : Rat
  popupLon : Rat
deriving DecidableEq

/-- `L.marker([inc.latitude, inc.longitude]).bindPopup(...)`. -/
def markerOf (inc : ClientIncident) : Marker :=
  { lat := inc.latitude, lon := inc.longitude,
    popupId := inc._id.take 8, popupReporter := inc.reporter_name,
    popupStatus := inc.status, popupLat := inc.latitude,
    popupLon := inc.longitude }

/-- `marker.setPopupContent(...)`: the popup is rebuilt from the incoming
incident, the marker position is untouched. -/
def setPopupContent (m : Marker) (inc : ClientIncident) : Marker :=
  { m with popupId := inc._id.take 8, popupReporter := inc.reporter_name,
           popupStatus := inc.status, popupLat := inc.latitude,
           popupLon := inc.longitude }

/-- A `<li>` of the incident list: the data rendered into it; the status
span text and its `data-status` attribute are what
`updateIncidentStatusInList` rewrites. -/
structure IncListItem where
  itemId : String
  reporter : String
  status : String
  statusData : String
  time : Rat
deriving DecidableEq

/-- The list item created by `addIncidentToMapAndList`. -/
def listItemOf (inc : ClientIncident) : IncListItem :=
  { itemId := inc._id.take 8, reporter := inc.reporter_name,
    status := inc.status, statusData := inc.status.toLower,
    time := inc.timestamp }

/-- The dashboard client's local view: the `markers` object, the incident
list DOM (`incidentList` children, newest first) and the
`displayedIncidentIds` set (kept as its insertion-ordered list). -/
structure ClientView where
  markers : List (String × Marker)
  items : List (String × IncListItem)
  displayed : List String
deriving DecidableEq

/-- `updateIncidentStatusInList` (script.js part_001, 84-94): rewrite the
status span (text and `data-status`) of the incident's list item and the
popup of its marker; nothing else changes (ids are unique keys, so the
map-over-all-entries is the single-element DOM/object update). -/
def updateIncidentStatusInList (v : ClientView) (inc : ClientIncident) : ClientView :=
  { v with
    items := v.items.map (fun p =>
      if p.1 = inc._id
      then (p.1, { p.2 with status := inc.status, statusData := inc.status.toLower })
      else p),
    markers := v.markers.map (fun p =>
      if p.1 = inc._id then (p.1, setPopupContent p.2 inc) else p) }

/-- `addIncidentToMapAndList` (script.js part_001, 26-66): if the id is
already displayed, just refresh its status; otherwise create the marker
(object key appended), prepend the list item, and add the id to
`displayedIncidentIds`.  The `isNewFromPolling` flag only retimes the
alert sound and is not modelled. -/
def addIncidentToMapAndList (v : ClientView) (inc : ClientIncident) : ClientView :=
  if v.displayed.contains inc._id then
    updateIncidentStatusInList v inc
  else
    { markers := v.markers ++ [(inc._id, markerOf inc)],
      items := (inc._id, listItemOf inc) :: v.items,
      displayed := v.displayed ++ [inc._id] }

/-- `removeIncidentFromMapAndList` (script.js part_001, 68-82): drop the
marker under that key if present, remove the incident's list item if
present, and delete the id from `displayedIncidentIds`. -/
def removeIncidentFromMapAndList (v : ClientView) (incidentId : String) : ClientView :=
  { markers := v.markers.filter (fun p => ¬ p.1 = incidentId),
    items := v.items.eraseP (fun p => p.1 = incidentId),
    displayed := v.displayed.erase incidentId }

/-- The older client's view (script.js part_000): no
`displayedIncidentIds` set, presence is judged from `markers`. -/
structure LegacyView where
  markers : List (String × Marker)
  items : List (String × IncListItem)
deriving DecidableEq

/-- `addIncidentToMapAndList` (script.js part_000, 21-48): skip entirely
if a marker for the id already exists, otherwise add marker and list
item. -/
def addIncidentLegacy (v : LegacyView) (inc : ClientIncident) : LegacyView :=
  if v.markers.any (fun p => p.1 = inc._id) then v
  else
    { markers := v.markers ++ [(inc._id, markerOf inc)],
      items := (inc._id, listItemOf inc) :: v.items }

/-- State of the polling reconciliation client: the local view plus
`lastPollIncidents`. -/
structure PollState where
  view : ClientView
  lastPoll : List ClientIncident
deriving DecidableEq

/-- `fetchNewIncidents` (script.js part_001, 122-153), success path of the
HTTP fetch: take the store snapshot `currentIncidents`; every incident
whose id is not yet displayed is added (newly arrived); every incident of
the previous poll whose id is absent from the snapshot is removed
(deleted); finally remember the snapshot as `lastPollIncidents`. -/
def fetchNewIncidents (st : PollState) (currentIncidents : List ClientIncident) : PollState :=
  let currentIncidentIds := currentIncidents.map (fun inc => inc._id)
  let newIncidents := currentIncidents.filter
    (fun inc => ¬ st.view.displayed.contains inc._id)
  let view1 := newIncidents.foldl (fun v inc => addIncidentToMapAndList v inc) st.view
  let deletedIncidentsInPoll := st.lastPoll.filter
    (fun inc => ¬ currentIncidentIds.contains inc._id)
  let view2 := deletedIncidentsInPoll.foldl
    (fun v inc => removeIncidentFromMapAndList v inc._id) view1
  { view := view2, lastPoll := currentIncidents }

/-- The client's state at page load: empty view, empty `lastPollIncidents`. -/
def initialClientState : PollState :=
  { view := { markers := [], items := [], displayed := [] }, lastPoll := [] }

/-- Location validity as worded by the spec (section 4.3 step 1 and the
data-model invariant): lat in [-90, 90] and lon in [-180, 180].  This is
the spec-side definition, stated for comparison with the code; the
`bot.on('location')` handler contains no such check. -/
def specValidLocation (lat lon : Rat) : Prop :=
  -90 ≤ lat ∧ lat ≤ 90 ∧ -180 ≤ lon ∧ lon ≤ 180

instance (lat lon : Rat) : Decidable (specValidLocation lat lon) := by
  unfold specValidLocation
  infer_instance

/-- The state invariant of a viewer that has only ever been updated by
polling runs: the displayed-id set has no duplicates and holds exactly
the ids of the last poll's snapshot. -/
def PollConsistent (st : PollState) : Prop :=
  st.view.displayed.Nodup ∧
    ∀ x, x ∈ st.view.displayed ↔ x ∈ st.lastPoll.map (fun inc => inc._id)

lemma splitUnderscore_ne_nil (l : List Char) : splitUnderscore l ≠ [] := by
  cases l with
  | nil => simp [splitUnderscore]
  | cons c cs =>
      unfold splitUnderscore
      by_cases hc : c = '_'
      · simp [hc]
      · simp only [if_neg hc]
        cases splitUnderscore cs <;> simp

lemma splitUnderscore_append (a rest : List Char) (h : '_' ∉ a) :
    splitUnderscore (a ++ '_' :: rest) = a :: splitUnderscore rest := by
  induction a with
  | nil => simp [splitUnderscore]
  | cons c cs ih =>
      have hc : ¬ c = '_' := fun hh => h (hh ▸ List.mem_cons_self c cs)
      have hcs : '_' ∉ cs := fun hm => h (List.mem_cons_of_mem _ hm)
      simp only [List.cons_append, splitUnderscore, if_neg hc, List.append_eq, ih hcs]

/-- C5: the status-transition decision is a pure function of the action
token.  For every well-formed token `<verb>_<qualifier>_<actor-id>`
(verb and qualifier free of underscores, actor-id arbitrary), `tow` +
`eagles` resolves to `Tow Requested: Eagles 24`, `tow` + any other
qualifier to `Tow Requested: Other`, `scene` + `cleared` to the terminal
`Scene Cleared` (remove-buttons flag set), and every other combination is
rejected; moreover any token resolving with the terminal flag makes the
callback handler strip the interactive controls from the channel
message. -/
theorem resolveAction_mapping (verb qual act : List Char)
    (hv : '_' ∉ verb) (hq : '_' ∉ qual) :
    resolveAction (verb ++ '_' :: (qual ++ '_' :: act)) =
      (if verb = "tow".toList then
        some ((if qual = "eagles".toList then "Tow Requested: Eagles 24"
               else "Tow Requested: Other"), false)
      else if verb = "scene".toList ∧ qual = "cleared".toList then
        some ("Scene Cleared", true)
      else none) ∧
    (∀ (store : List Doc) (msg : ChannelMsg) (msgId chatId : Rat)
       (data : List Char) (username timeStr : String) (now : Rat)
       (newStatus : String),
       resolveAction data = some (newStatus, true) →
       (handleCallback store msg msgId chatId data username timeStr now).msg.reply_markup
         = none) := by
  constructor
  · have h1 : splitUnderscore (verb ++ '_' :: (qual ++ '_' :: act))
        = verb :: qual :: splitUnderscore act := by
      rw [splitUnderscore_append _ _ hv, splitUnderscore_append _ _ hq]
    simp only [resolveAction, h1, List.get?, Option.some.injEq]
  · intro store msg msgId chatId data username timeStr now newStatus hres
    simp [handleCallback, hres]

/-- Witness for `resolveAction_mapping` at the concrete token
`tow_eagles_42`. -/
theorem resolveAction_mapping_witness :
    ('_' ∉ "tow".toList) ∧ ('_' ∉ "eagles".toList) ∧
    resolveAction ("tow".toList ++ '_' :: ("eagles".toList ++ '_' :: "42".toList))
      = some ("Tow Requested: Eagles 24", false) := by
  refine ⟨by decide, by decide, ?_⟩
  have h := (resolveAction_mapping "tow".toList "eagles".toList "42".toList
    (by decide) (by decide)).1
  exact h.trans (by decide)

/-- C10: any action token whose first underscore-delimited segment is
`tow` resolves to a `Tow Requested` status, however many segments follow:
the bare token `tow` (missing qualifier) gives `Tow Requested: Other`,
and a token `tow_<rest>` gives `Tow Requested: Eagles 24` exactly when
the second segment (the first segment of `rest`) is `eagles`, and
`Tow Requested: Other` otherwise, regardless of further segments. -/
theorem resolveAction_tow_prefix (rest : List Char) :
    resolveAction "tow".toList = some ("Tow Requested: Other", false) ∧
    resolveAction ("tow".toList ++ '_' :: rest) =
      some ((if (splitUnderscore rest).get? 0 = some "eagles".toList
             then "Tow Requested: Eagles 24"
             else "Tow Requested: Other"), false) := by
  constructor
  · decide
  · have h1 : splitUnderscore ("tow".toList ++ '_' :: rest)
        = "tow".toList :: splitUnderscore rest :=
      splitUnderscore_append _ _ (by decide)
    simp [resolveAction, h1, List.get?]

/-- C6: an unrecognized action token makes the callback handler answer
"Unknown action." and return before touching anything: the channel
message, the store and the event stream are exactly as before. -/
theorem unknown_action_no_mutation (store : List Doc) (msg : ChannelMsg)
    (msgId chatId : Rat) (data : List Char) (username timeStr : String)
    (now : Rat) (h : resolveAction data = none) :
    handleCallback store msg msgId chatId data username timeStr now =
      { msg := msg, store := store, answer := "Unknown action.", events := [] } := by
  simp [handleCallback, h]

/-- Witness for `unknown_action_no_mutation` at the concrete token
`bogus_token_1` (the spec's own scenario) against a one-incident store. -/
theorem unknown_action_no_mutation_witness :
    resolveAction "bogus_token_1".toList = none ∧
    handleCallback [insertedIncident 7 "Alice" 1 2 100 5 3 "abc"]
        ⟨"orig", some ()⟩ 100 5 "bogus_token_1".toList "op" "noon" 9 =
      { msg := ⟨"orig", some ()⟩,
        store := [insertedIncident 7 "Alice" 1 2 100 5 3 "abc"],
        answer := "Unknown action.", events := [] } :=
  ⟨by decide, unknown_action_no_mutation _ _ _ _ _ _ _ _ (by decide)⟩

lemma find?_map_replace (d : Doc) (k : String) (v : JsonVal)
    (h : d.any (fun p => p.1 = k) = true) :
    (d.map (fun p => if p.1 = k then (k, v) else p)).find? (fun p => p.1 = k)
      = some (k, v) := by
  induction d with
  | nil => simp at h
  | cons a ds ih =>
      by_cases hak : a.1 = k
      · simp [List.find?_cons, hak]
      · have h' : ds.any (fun p => p.1 = k) = true := by
          simpa [List.any_cons, hak] using h
        simp [List.find?_cons, hak, ih h']

lemma find?_map_replace_ne (d : Doc) (k k' : String) (v : JsonVal)
    (hne : k' ≠ k) :
    (d.map (fun p => if p.1 = k then (k, v) else p)).find? (fun p => p.1 = k')
      = d.find? (fun p => p.1 = k') := by
  induction d with
  | nil => simp
  | cons a ds ih =>
      by_cases hak : a.1 = k
      · have h1 : ¬ (k = k') := fun hh => hne hh.symm
        have h2 : ¬ (a.1 = k') := by
          rw [hak]
          exact h1
        simp [List.find?_cons, hak, h1, h2, ih]
      · by_cases hak' : a.1 = k'
        · simp [List.find?_cons, hak, hak', hne]
        · simp [List.find?_cons, hak, hak', ih]

lemma Doc.getVal_setVal_self (d : Doc) (k : String) (v : JsonVal) :
    (d.setVal k v).getVal k = some v := by
  unfold Doc.setVal Doc.getVal
  by_cases h : d.any (fun p => p.1 = k) = true
  · simp only [h, if_true, find?_map_replace d k v h]
    rfl
  · have hnone : d.find? (fun p => p.1 = k) = none := by
      rw [List.find?_eq_none]
      intro x hx hpx
      exact h (List.any_eq_true.mpr ⟨x, hx, hpx⟩)
    simp only [h, if_false, Bool.false_eq_true, List.find?_append, hnone]
    simp [List.find?_cons]

lemma Doc.getVal_setVal_ne (d : Doc) (k k' : String) (v : JsonVal)
    (hne : k' ≠ k) :
    (d.setVal k v).getVal k' = d.getVal k' := by
  unfold Doc.setVal Doc.getVal
  by_cases h : d.any (fun p => p.1 = k) = true
  · simp only [h, if_true, find?_map_replace_ne d k k' v hne]
  · have h1 : ¬ (k = k') := fun hh => hne hh.symm
    simp only [h, if_false, Bool.false_eq_true, List.find?_append]
    cases hfd : d.find? (fun p => p.1 = k') <;> simp [List.find?_cons, h1]

lemma findOneAndUpdate_no_match (store : List Doc) (msgId chatId : Rat)
    (newStatus : String) (now : Rat)
    (h : ∀ d ∈ store, matchesChannelMessage d msgId chatId = false) :
    findOneAndUpdate store msgId chatId newStatus now = (none, store) := by
  induction store with
  | nil => rfl
  | cons d ds ih =>
      have hd := h d (List.mem_cons_self d ds)
      have hds : ∀ d' ∈ ds, matchesChannelMessage d' msgId chatId = false :=
        fun d' hm => h d' (List.mem_cons_of_mem _ hm)
      simp [findOneAndUpdate, hd, ih hds]

/-- C1 (amended): when no stored incident matches the callback's
(channel id, message id) pair, the store is left unchanged and no
`incident_updated` event is emitted — but the channel message is still
edited (the audit line is appended before the lookup is even attempted)
and the actor is answered "Status updated to: ..." rather than a
rejection; only a console warning records the missing record. -/
theorem callback_notfound_behavior (store : List Doc) (msg : ChannelMsg)
    (msgId chatId : Rat) (data : List Char) (username timeStr : String)
    (now : Rat) (newStatus : String) (removeButtons : Bool)
    (hres : resolveAction data = some (newStatus, removeButtons))
    (hnone : ∀ d ∈ store, matchesChannelMessage d msgId chatId = false) :
    (handleCallback store msg msgId chatId data username timeStr now).store = store ∧
    (handleCallback store msg msgId chatId data username timeStr now).events = [] ∧
    (handleCallback store msg msgId chatId data username timeStr now).answer
      = "Status updated to: " ++ newStatus ∧
    (handleCallback store msg msgId chatId data username timeStr now).msg.text
      = msg.text ++ "\n\n_Status: " ++ newStatus ++ " (by @" ++ username
          ++ " at " ++ timeStr ++ ")_" := by
  simp [handleCallback, hres,
    findOneAndUpdate_no_match store msgId chatId newStatus now hnone]

/-- Witness for `callback_notfound_behavior` at a concrete recognized token
against the empty store. -/
theorem callback_notfound_behavior_witness :
    resolveAction "tow_other_9".toList = some ("Tow Requested: Other", false) ∧
    (∀ d ∈ ([] : List Doc), matchesChannelMessage d 8 9 = false) ∧
    ((handleCallback [] ⟨"orig", some ()⟩ 8 9 "tow_other_9".toList
        "op" "noon" 4).store = [] ∧
     (handleCallback [] ⟨"orig", some ()⟩ 8 9 "tow_other_9".toList
        "op" "noon" 4).events = [] ∧
     (handleCallback [] ⟨"orig", some ()⟩ 8 9 "tow_other_9".toList
        "op" "noon" 4).answer = "Status updated to: " ++ "Tow Requested: Other" ∧
     (handleCallback [] ⟨"orig", some ()⟩ 8 9 "tow_other_9".toList
        "op" "noon" 4).msg.text
       = "orig" ++ "\n\n_Status: " ++ "Tow Requested: Other" ++ " (by @" ++ "op"
           ++ " at " ++ "noon" ++ ")_") :=
  ⟨by decide, by simp,
   callback_notfound_behavior [] ⟨"orig", some ()⟩ 8 9 "tow_other_9".toList
     "op" "noon" 4 "Tow Requested: Other" false (by decide) (by simp)⟩

/-- C1 counterexample: with an empty store (so the (channel id, message
id) lookup finds nothing) and the recognized token `tow_other_9`, the
handler still rewrites the channel message text and does not report a
rejection ("Unknown action.") to the actor — refuting the claim that on
NotFound a rejection is reported and the channel message is unchanged. -/
theorem callback_notfound_counterexample :
    findOneAndUpdate [] 8 9 "Tow Requested: Other" 4 = (none, []) ∧
    (handleCallback [] ⟨"orig", some ()⟩ 8 9 "tow_other_9".toList
       "op" "noon" 4).msg.text ≠ "orig" ∧
    (handleCallback [] ⟨"orig", some ()⟩ 8 9 "tow_other_9".toList
       "op" "noon" 4).answer ≠ "Unknown action." := by
  decide

/-- C8: a status update writes exactly the `status` and `last_updated`
fields: every other field of the document (id, reporter identity,
location, channel message reference, created timestamp) reads the same
after `updateStatus` as before, `last_updated` is always set to the
update instant, `status` to the new status — and the store after
`findOneAndUpdate` is the old store with each document either untouched
or replaced by its `updateStatus`. -/
theorem update_only_status_fields (store : List Doc) (d : Doc)
    (msgId chatId : Rat) (newStatus : String) (now : Rat) (k : String)
    (hk1 : k ≠ "status") (hk2 : k ≠ "last_updated") :
    (updateStatus d newStatus now).getVal k = d.getVal k ∧
    (updateStatus d newStatus now).getVal "last_updated" = some (.num now) ∧
    (updateStatus d newStatus now).getVal "status" = some (.str newStatus) ∧
    List.Forall₂ (fun a b => b = a ∨ b = updateStatus a newStatus now)
      store (findOneAndUpdate store msgId chatId newStatus now).2 := by
  refine ⟨?_, ?_, ?_, ?_⟩
  · rw [updateStatus, Doc.getVal_setVal_ne _ _ _ _ hk2,
      Doc.getVal_setVal_ne _ _ _ _ hk1]
  · rw [updateStatus, Doc.getVal_setVal_self]
  · rw [updateStatus,
      Doc.getVal_setVal_ne _ _ _ _ (by decide : ("status" : String) ≠ "last_updated"),
      Doc.getVal_setVal_self]
  · induction store with
    | nil => simp [findOneAndUpdate]
    | cons a ds ih =>
        by_cases hm : matchesChannelMessage a msgId chatId
        · simp only [findOneAndUpdate, hm, if_true]
          exact List.Forall₂.cons (Or.inr rfl)
            (List.forall₂_same.mpr (fun x _ => Or.inl rfl))
        · simp only [findOneAndUpdate, hm, if_false, Bool.false_eq_true]
          exact List.Forall₂.cons (Or.inl rfl) ih

/-- Witness for `update_only_status_fields` at a concrete document and
the field `latitude`. -/
theorem update_only_status_fields_witness :
    (("latitude" : String) ≠ "status") ∧ (("latitude" : String) ≠ "last_updated") ∧
    ((updateStatus (insertedIncident 7 "Alice" 1 2 100 5 3 "abc") "Scene Cleared" 9).getVal
        "latitude" = (insertedIncident 7 "Alice" 1 2 100 5 3 "abc").getVal "latitude" ∧
     (updateStatus (insertedIncident 7 "Alice" 1 2 100 5 3 "abc") "Scene Cleared" 9).getVal
        "last_updated" = some (.num 9) ∧
     (updateStatus (insertedIncident 7 "Alice" 1 2 100 5 3 "abc") "Scene Cleared" 9).getVal
        "status" = some (.str "Scene Cleared") ∧
     List.Forall₂ (fun a b => b = a ∨ b = updateStatus a "Scene Cleared" 9)
       [insertedIncident 7 "Alice" 1 2 100 5 3 "abc"]
       (findOneAndUpdate [insertedIncident 7 "Alice" 1 2 100 5 3 "abc"]
         100 5 "Scene Cleared" 9).2) :=
  ⟨by decide, by decide,
   update_only_status_fields [insertedIncident 7 "Alice" 1 2 100 5 3 "abc"]
     (insertedIncident 7 "Alice" 1 2 100 5 3 "abc") 100 5 "Scene Cleared" 9
     "latitude" (by decide) (by decide)⟩

lemma deleteOne_of_found (store : List Doc) (idStr : String) (d : Doc)
    (h : findOneById store idStr = some d) :
    (deleteOneById store idStr).1 = 1 := by
  induction store with
  | nil => simp [findOneById] at h
  | cons a ds ih =>
      by_cases ha : a.getVal "_id" = some (.str idStr)
      · simp [deleteOneById, ha]
      · have h' : findOneById ds idStr = some d := by
          simpa [findOneById, List.find?_cons, ha] using h
        simp [deleteOneById, ha, ih h']

lemma deleteOne_removes_all (store : List Doc) (idStr : String)
    (nd : (store.map (fun d => d.getVal "_id")).Nodup) :
    ∀ d' ∈ (deleteOneById store idStr).2, d'.getVal "_id" ≠ some (.str idStr) := by
  induction store with
  | nil => simp [deleteOneById]
  | cons a ds ih =>
      by_cases ha : a.getVal "_id" = some (.str idStr)
      · intro d' hd'
        simp only [deleteOneById, ha, if_true] at hd'
        intro heq
        have hmem : a.getVal "_id" ∈ ds.map (fun d => d.getVal "_id") :=
          ha ▸ heq ▸ List.mem_map_of_mem _ hd'
        exact (List.nodup_cons.mp nd).1 hmem
      · intro d' hd'
        simp only [deleteOneById, ha, if_false] at hd'
        rcases List.mem_cons.mp hd' with h1 | h1
        · exact h1 ▸ ha
        · exact ih (List.nodup_cons.mp nd).2 d' h1

/-- C7: `DELETE /incidents/:id` answers 404 with a message and emits no
event when no incident has the given id and the store is untouched;
when one exists (ids being unique, as Mongo's `_id` index guarantees) it
answers 200 with a message, emits exactly one `incident_deleted` event
carrying that id, and afterwards no stored document carries that id. -/
theorem delete_endpoint_behavior (store : List Doc) (idStr : String) :
    (findOneById store idStr = none →
      handleDelete store idStr =
        { status := 404, message := "Incident not found.",
          store := store, events := [] }) ∧
    ((store.map (fun d => d.getVal "_id")).Nodup →
      ∀ d, findOneById store idStr = some d →
        (handleDelete store idStr).status = 200 ∧
        (handleDelete store idStr).message = "Incident deleted successfully." ∧
        (handleDelete store idStr).events = [.incident_deleted idStr] ∧
        ∀ d' ∈ (handleDelete store idStr).store,
          d'.getVal "_id" ≠ some (.str idStr)) := by
  constructor
  · intro h
    simp [handleDelete, h]
  · intro nd d h
    have h1 := deleteOne_of_found store idStr d h
    simp only [handleDelete, h, h1, if_true]
    refine ⟨trivial, trivial, trivial, ?_⟩
    exact fun d' hd' => deleteOne_removes_all store idStr nd d' hd'

/-- Witness for `delete_endpoint_behavior`: deleting the only incident of
a one-incident store, and deleting a missing id. -/
theorem delete_endpoint_behavior_witness :
    ((([insertedIncident 7 "Alice" 1 2 100 5 3 "abc"] : List Doc).map
        (fun d => d.getVal "_id")).Nodup ∧
     findOneById [insertedIncident 7 "Alice" 1 2 100 5 3 "abc"] "abc"
       = some (insertedIncident 7 "Alice" 1 2 100 5 3 "abc") ∧
     (handleDelete [insertedIncident 7 "Alice" 1 2 100 5 3 "abc"] "abc").status = 200 ∧
     (handleDelete [insertedIncident 7 "Alice" 1 2 100 5 3 "abc"] "abc").events
       = [.incident_deleted "abc"]) ∧
    (findOneById [insertedIncident 7 "Alice" 1 2 100 5 3 "abc"] "zzz" = none ∧
     handleDelete [insertedIncident 7 "Alice" 1 2 100 5 3 "abc"] "zzz" =
       { status := 404, message := "Incident not found.",
         store := [insertedIncident 7 "Alice" 1 2 100 5 3 "abc"], events := [] }) := by
  constructor
  · have h := (delete_endpoint_behavior [insertedIncident 7 "Alice" 1 2 100 5 3 "abc"]
      "abc").2 (by decide) (insertedIncident 7 "Alice" 1 2 100 5 3 "abc") (by decide)
    exact ⟨by decide, by decide, h.1, h.2.2.1⟩
  · exact ⟨by decide,
      (delete_endpoint_behavior [insertedIncident 7 "Alice" 1 2 100 5 3 "abc"]
        "zzz").1 (by decide)⟩

/-- C3 counterexample: the report ingestion handler performs no bounds
check.  At the out-of-bounds location (lat 200, lon 0) — which violates
the spec's lat in [-90, 90] bound — the report is not rejected: an
incident is persisted and a `new_incident` event is fanned out, refuting
the claim that out-of-bounds reports are rejected with no side effects. -/
theorem location_no_bounds_validation :
    ¬ specValidLocation 200 0 ∧
    (handleLocation [] 7 "Alice" 200 0 100 5 3 "abc").store
      = [insertedIncident 7 "Alice" 200 0 100 5 3 "abc"] ∧
    (handleLocation [] 7 "Alice" 200 0 100 5 3 "abc").events
      = [.new_incident (insertedIncident 7 "Alice" 200 0 100 5 3 "abc")] := by
  refine ⟨?_, rfl, rfl⟩
  intro h
  have := h.2.1
  norm_num at this

/-- C3 (amended): ingestion performs no location validation at all — for
every report, whatever its coordinates, exactly one incident is appended
to the store, with status `active` and a non-null channel message
reference (`telegram_message_id` / `telegram_chat_id` both set), and
exactly one `new_incident` event is emitted. -/
theorem location_always_persists (store : List Doc) (fromId : Rat)
    (firstName : String) (lat lon : Rat) (fwdMsgId fwdChatId : Rat)
    (now : Rat) (newId : String) :
    (handleLocation store fromId firstName lat lon fwdMsgId fwdChatId now newId).store
      = store ++ [insertedIncident fromId firstName lat lon fwdMsgId fwdChatId now newId] ∧
    (handleLocation store fromId firstName lat lon fwdMsgId fwdChatId now newId).events
      = [.new_incident (insertedIncident fromId firstName lat lon fwdMsgId fwdChatId now newId)] ∧
    (insertedIncident fromId firstName lat lon fwdMsgId fwdChatId now newId).getVal "status"
      = some (.str "active") ∧
    (insertedIncident fromId firstName lat lon fwdMsgId fwdChatId now newId).getVal
        "telegram_message_id" = some (.num fwdMsgId) ∧
    (insertedIncident fromId firstName lat lon fwdMsgId fwdChatId now newId).getVal
        "telegram_chat_id" = some (.num fwdChatId) := by
  refine ⟨rfl, rfl, ?_, ?_, ?_⟩ <;>
    simp [insertedIncident, newIncident, Doc.getVal, List.find?_cons]

/-- C4 counterexample: the persisted and exposed record has no field
named `id` — the Mongo identifier is exposed as `_id` (the dashboard
client reads `incident._id` throughout), refuting the claimed field list
which names `id`. -/
theorem wire_shape_counterexample :
    "id" ∉ (insertedIncident 7 "Alice" 1 2 100 5 3 "abc").keys ∧
    "_id" ∈ (insertedIncident 7 "Alice" 1 2 100 5 3 "abc").keys := by
  decide

/-- C4 (amended): every persisted record has exactly the field names
`_id, reporter_id, reporter_name, latitude, longitude, status,
telegram_message_id, telegram_chat_id, timestamp` (with `_id` the
Mongo-assigned identifier, not `id`), and gains exactly the extra field
`last_updated` once a status update is applied to it. -/
theorem wire_shape_fields (fromId : Rat) (firstName : String)
    (lat lon : Rat) (fwdMsgId fwdChatId : Rat) (now : Rat) (newId : String)
    (newStatus : String) (later : Rat) :
    (insertedIncident fromId firstName lat lon fwdMsgId fwdChatId now newId).keys
      = ["reporter_id", "reporter_name", "latitude", "longitude", "status",
         "telegram_message_id", "telegram_chat_id", "timestamp", "_id"] ∧
    (updateStatus (insertedIncident fromId firstName lat lon fwdMsgId fwdChatId now newId)
        newStatus later).keys
      = ["reporter_id", "reporter_name", "latitude", "longitude", "status",
         "telegram_message_id", "telegram_chat_id", "timestamp", "_id",
         "last_updated"] := by
  constructor
  · rfl
  · rfl

lemma updateIncidentStatusInList_idem (v : ClientView) (inc : ClientIncident) :
    updateIncidentStatusInList (updateIncidentStatusInList v inc) inc
      = updateIncidentStatusInList v inc := by
  unfold updateIncidentStatusInList
  simp only [List.map_map]
  congr 1
  · apply List.map_congr_left
    intro p _
    by_cases hp : p.1 = inc._id <;> simp [Function.comp, hp, setPopupContent]
  · apply List.map_congr_left
    intro p _
    by_cases hp : p.1 = inc._id <;> simp [Function.comp, hp]

lemma updateIncidentStatusInList_fresh (v : ClientView) (inc : ClientIncident)
    (hm : ∀ p ∈ v.markers, p.1 ≠ inc._id) (hi : ∀ p ∈ v.items, p.1 ≠ inc._id) :
    updateIncidentStatusInList
      { markers := v.markers ++ [(inc._id, markerOf inc)],
        items := (inc._id, listItemOf inc) :: v.items,
        displayed := v.displayed ++ [inc._id] } inc
      = { markers := v.markers ++ [(inc._id, markerOf inc)],
          items := (inc._id, listItemOf inc) :: v.items,
          displayed := v.displayed ++ [inc._id] } := by
  unfold updateIncidentStatusInList
  congr 1
  · rw [List.map_append]
    have h1 : v.markers.map (fun p =>
        if p.1 = inc._id then (p.1, setPopupContent p.2 inc) else p) = v.markers.map id :=
      List.map_congr_left (fun p hp => by simp [hm p hp])
    rw [h1, List.map_id]
    simp [setPopupContent, markerOf]
  · rw [List.map_cons]
    have h1 : v.items.map (fun p =>
        if p.1 = inc._id
        then (p.1, { p.2 with status := inc.status, statusData := inc.status.toLower })
        else p) = v.items.map id :=
      List.map_congr_left (fun p hp => by simp [hi p hp])
    rw [h1, List.map_id]
    simp [listItemOf]

/-- C9: the viewer-side merge is idempotent: if the view is well-formed
(every marker / list-item key is a displayed id), applying the same
`new_incident` merge twice yields exactly the view obtained by applying
it once; removing an id that is not displayed is a no-op; and the older
client's merge (part_000) is likewise idempotent. -/
theorem merge_idempotent (v : ClientView) (inc : ClientIncident)
    (incId : String) (lv : LegacyView)
    (wf_m : ∀ p ∈ v.markers, p.1 ∈ v.displayed)
    (wf_i : ∀ p ∈ v.items, p.1 ∈ v.displayed)
    (habs : incId ∉ v.displayed) :
    addIncidentToMapAndList (addIncidentToMapAndList v inc) inc
      = addIncidentToMapAndList v inc ∧
    removeIncidentFromMapAndList v incId = v ∧
    addIncidentLegacy (addIncidentLegacy lv inc) inc = addIncidentLegacy lv inc := by
  refine ⟨?_, ?_, ?_⟩
  · by_cases hd : v.displayed.contains inc._id
    · have h1 : addIncidentToMapAndList v inc = updateIncidentStatusInList v inc := by
        unfold addIncidentToMapAndList
        rw [if_pos hd]
      have h2 : (updateIncidentStatusInList v inc).displayed = v.displayed := rfl
      rw [h1]
      unfold addIncidentToMapAndList
      rw [h2, if_pos hd]
      exact updateIncidentStatusInList_idem v inc
    · have h1 : addIncidentToMapAndList v inc =
          { markers := v.markers ++ [(inc._id, markerOf inc)],
            items := (inc._id, listItemOf inc) :: v.items,
            displayed := v.displayed ++ [inc._id] } := by
        unfold addIncidentToMapAndList
        rw [if_neg hd]
      have hmem : inc._id ∉ v.displayed := fun hmm =>
        hd (List.elem_iff.mpr hmm)
      rw [h1]
      unfold addIncidentToMapAndList
      rw [if_pos (by simp : (v.displayed ++ [inc._id]).contains inc._id = true)]
      exact updateIncidentStatusInList_fresh v inc
        (fun p hp heq => hmem (heq ▸ wf_m p hp))
        (fun p hp heq => hmem (heq ▸ wf_i p hp))
  · have hm : ∀ p ∈ v.markers, p.1 ≠ incId :=
      fun p hp heq => habs (heq ▸ wf_m p hp)
    have hi : ∀ p ∈ v.items, p.1 ≠ incId :=
      fun p hp heq => habs (heq ▸ wf_i p hp)
    unfold removeIncidentFromMapAndList
    obtain ⟨m, i, d⟩ := v
    congr 1
    · exact List.filter_eq_self.mpr (fun p hp => by simpa using hm p hp)
    · exact List.eraseP_of_forall_not (fun p hp => by simpa using hi p hp)
    · exact List.erase_of_not_mem habs
  · by_cases hl : lv.markers.any (fun p => p.1 = inc._id)
    · have h1 : addIncidentLegacy lv inc = lv := by
        unfold addIncidentLegacy
        rw [if_pos hl]
      rw [h1]
      exact h1
    · have h1 : addIncidentLegacy lv inc =
          { markers := lv.markers ++ [(inc._id, markerOf inc)],
            items := (inc._id, listItemOf inc) :: lv.items } := by
        unfold addIncidentLegacy
        rw [if_neg hl]
      rw [h1]
      unfold addIncidentLegacy
      rw [if_pos (by simp :
        ((lv.markers ++ [(inc._id, markerOf inc)]).any (fun p => p.1 = inc._id)) = true)]

/-- Witness for `merge_idempotent` on a concrete one-incident view. -/
theorem merge_idempotent_witness :
    (∀ p ∈ [("a", markerOf ⟨"a", "Alice", 1, 2, "active", 3⟩)],
       (p : String × Marker).1 ∈ ["a"]) ∧
    (∀ p ∈ [("a", listItemOf ⟨"a", "Alice", 1, 2, "active", 3⟩)],
       (p : String × IncListItem).1 ∈ ["a"]) ∧
    ("c" ∉ (["a"] : List String)) ∧
    (addIncidentToMapAndList
        (addIncidentToMapAndList
          ⟨[("a", markerOf ⟨"a", "Alice", 1, 2, "active", 3⟩)],
           [("a", listItemOf ⟨"a", "Alice", 1, 2, "active", 3⟩)], ["a"]⟩
          ⟨"b", "Bob", 4, 5, "active", 6⟩)
        ⟨"b", "Bob", 4, 5, "active", 6⟩
      = addIncidentToMapAndList
          ⟨[("a", markerOf ⟨"a", "Alice", 1, 2, "active", 3⟩)],
           [("a", listItemOf ⟨"a", "Alice", 1, 2, "active", 3⟩)], ["a"]⟩
          ⟨"b", "Bob", 4, 5, "active", 6⟩ ∧
     removeIncidentFromMapAndList
        ⟨[("a", markerOf ⟨"a", "Alice", 1, 2, "active", 3⟩)],
         [("a", listItemOf ⟨"a", "Alice", 1, 2, "active", 3⟩)], ["a"]⟩ "c"
      = ⟨[("a", markerOf ⟨"a", "Alice", 1, 2, "active", 3⟩)],
         [("a", listItemOf ⟨"a", "Alice", 1, 2, "active", 3⟩)], ["a"]⟩ ∧
     addIncidentLegacy (addIncidentLegacy ⟨[], []⟩ ⟨"b", "Bob", 4, 5, "active", 6⟩)
        ⟨"b", "Bob", 4, 5, "active", 6⟩
      = addIncidentLegacy ⟨[], []⟩ ⟨"b", "Bob", 4, 5, "active", 6⟩) :=
  ⟨by decide, by decide, by decide,
   merge_idempotent
     ⟨[("a", markerOf ⟨"a", "Alice", 1, 2, "active", 3⟩)],
      [("a", listItemOf ⟨"a", "Alice", 1, 2, "active", 3⟩)], ["a"]⟩
     ⟨"b", "Bob", 4, 5, "active", 6⟩ "c" ⟨[], []⟩
     (by decide) (by decide) (by decide)⟩

lemma add_displayed (v : ClientView) (inc : ClientIncident) :
    (addIncidentToMapAndList v inc).displayed =
      if v.displayed.contains inc._id then v.displayed
      else v.displayed ++ [inc._id] := by
  unfold addIncidentToMapAndList updateIncidentStatusInList
  by_cases h : inc._id ∈ v.displayed <;> simp [h]

lemma remove_displayed (v : ClientView) (incidentId : String) :
    (removeIncidentFromMapAndList v incidentId).displayed
      = v.displayed.erase incidentId := rfl

lemma mem_foldl_add (incs : List ClientIncident) (v : ClientView) (x : String) :
    (x ∈ (incs.foldl (fun w inc => addIncidentToMapAndList w inc) v).displayed) ↔
      x ∈ v.displayed ∨ x ∈ incs.map (fun inc => inc._id) := by
  induction incs generalizing v with
  | nil => simp
  | cons a as ih =>
      rw [List.foldl_cons, ih, add_displayed]
      by_cases h : v.displayed.contains a._id
      · have ha : a._id ∈ v.displayed := List.elem_iff.mp h
        rw [if_pos h]
        simp only [List.map_cons, List.mem_cons]
        constructor
        · rintro (hx | hx)
          · exact Or.inl hx
          · exact Or.inr (Or.inr hx)
        · rintro (hx | hx | hx)
          · exact Or.inl hx
          · exact Or.inl (hx ▸ ha)
          · exact Or.inr hx
      · rw [if_neg h]
        simp only [List.mem_append, List.mem_singleton, List.map_cons, List.mem_cons]
        tauto
  
lemma nodup_foldl_add (incs : List ClientIncident) (v : ClientView)
    (nd : v.displayed.Nodup) :
    ((incs.foldl (fun w inc => addIncidentToMapAndList w inc) v).displayed).Nodup := by
  induction incs generalizing v with
  | nil => exact nd
  | cons a as ih =>
      rw [List.foldl_cons]
      apply ih
      rw [add_displayed]
      by_cases h : v.displayed.contains a._id
      · rw [if_pos h]
        exact nd
      · rw [if_neg h]
        have ha : a._id ∉ v.displayed := fun hm => h (List.elem_iff.mpr hm)
        simp [List.nodup_append, nd, ha]

lemma mem_foldl_remove (dels : List ClientIncident) (v : ClientView) (x : String)
    (nd : v.displayed.Nodup) :
    (x ∈ (dels.foldl (fun w inc => removeIncidentFromMapAndList w inc._id) v).displayed) ↔
      (x ∈ v.displayed ∧ x ∉ dels.map (fun inc => inc._id)) := by
  induction dels generalizing v with
  | nil => simp
  | cons a as ih =>
      rw [List.foldl_cons, ih _ (by rw [remove_displayed]; exact nd.erase _),
        remove_displayed, nd.mem_erase_iff]
      simp only [List.map_cons, List.mem_cons]
      tauto

lemma nodup_foldl_remove (dels : List ClientIncident) (v : ClientView)
    (nd : v.displayed.Nodup) :
    ((dels.foldl (fun w inc => removeIncidentFromMapAndList w inc._id) v).displayed).Nodup := by
  induction dels generalizing v with
  | nil => exact nd
  | cons a as ih =>
      rw [List.foldl_cons]
      exact ih _ (by rw [remove_displayed]; exact nd.erase _)

lemma fetch_converges (st : PollState) (current : List ClientIncident)
    (hpc : PollConsistent st) :
    (∀ x, x ∈ (fetchNewIncidents st current).view.displayed ↔
       x ∈ current.map (fun inc => inc._id)) ∧
    PollConsistent (fetchNewIncidents st current) := by
  obtain ⟨nd, hsync⟩ := hpc
  have hmain : ∀ x, x ∈ (fetchNewIncidents st current).view.displayed ↔
      x ∈ current.map (fun inc => inc._id) := by
    intro x
    simp only [fetchNewIncidents]
    rw [mem_foldl_remove _ _ _ (nodup_foldl_add _ _ nd), mem_foldl_add]
    constructor
    · rintro ⟨hin, hdel⟩
      rcases hin with hD | hNew
      · by_contra hcur
        apply hdel
        rcases List.mem_map.mp ((hsync x).mp hD) with ⟨inc, hincmem, hincid⟩
        refine List.mem_map.mpr ⟨inc, List.mem_filter.mpr ⟨hincmem, ?_⟩, hincid⟩
        simp only [decide_eq_true_eq]
        intro hcont
        exact hcur (hincid ▸ List.elem_iff.mp hcont)
      · rcases List.mem_map.mp hNew with ⟨inc, hmem, hid⟩
        exact List.mem_map.mpr ⟨inc, (List.mem_filter.mp hmem).1, hid⟩
    · intro hcur
      constructor
      · by_cases hD : x ∈ st.view.displayed
        · exact Or.inl hD
        · right
          rcases List.mem_map.mp hcur with ⟨inc, hmem, hid⟩
          refine List.mem_map.mpr ⟨inc, List.mem_filter.mpr ⟨hmem, ?_⟩, hid⟩
          simp only [decide_eq_true_eq]
          intro hcont
          exact hD (hid ▸ List.elem_iff.mp hcont)
      · intro hdel
        rcases List.mem_map.mp hdel with ⟨inc, hmem, hid⟩
        have hnc := (List.mem_filter.mp hmem).2
        simp only [decide_eq_true_eq] at hnc
        apply hnc
        apply List.elem_iff.mpr
        rcases List.mem_map.mp hcur with ⟨inc2, hmem2, hid2⟩
        exact List.mem_map.mpr ⟨inc2, hmem2, hid2.trans hid.symm⟩
  refine ⟨hmain, ?_, ?_⟩
  · simp only [fetchNewIncidents]
    exact nodup_foldl_remove _ _ (nodup_foldl_add _ _ nd)
  · intro x
    exact hmain x

lemma pollConsistent_initial : PollConsistent initialClientState := by
  constructor
  · simp [initialClientState]
  · intro x
    simp [initialClientState]

lemma pollConsistent_foldl (polls : List (List ClientIncident)) (st : PollState)
    (h : PollConsistent st) : PollConsistent (polls.foldl fetchNewIncidents st) := by
  induction polls generalizing st with
  | nil => exact h
  | cons p ps ih => exact ih _ (fetch_converges st p h).2

/-- C2 (amended): reconciliation convergence for a poll-driven viewer.
A viewer that starts from the empty page-load state and is updated only
by polling runs (fan-out disabled) — each run seeing whatever snapshot
the store's mutation sequence has produced — reaches, after one further
run on the final snapshot, a local view whose displayed ids are set-equal
to the ids of that snapshot: every remote id is present locally and every
lingering local id absent remotely has been removed.  (The restriction to
poll-built views is necessary: see the stale-push counterexample.) -/
theorem polling_reconciliation_convergence
    (polls : List (List ClientIncident)) (current : List ClientIncident)
    (x : String) :
    (x ∈ (fetchNewIncidents (polls.foldl fetchNewIncidents initialClientState)
        current).view.displayed) ↔
      x ∈ current.map (fun inc => inc._id) :=
  (fetch_converges _ current
    (pollConsistent_foldl polls _ pollConsistent_initial)).1 x

/-- C2 counterexample: the deletion half of the polling diff is computed
against `lastPollIncidents`, not against the local view.  A viewer that
received incident "x" through a push event (so "x" is displayed but was
never seen by a poll, `lastPollIncidents` still empty) and then polls a
snapshot from which "x" has been deleted keeps "x" displayed: one
reconciliation run does not reach set-equality with `listAll()`. -/
theorem reconciliation_stale_push_counterexample :
    ("x" ∈ (fetchNewIncidents
        { view := addIncidentToMapAndList
            { markers := [], items := [], displayed := [] }
            ⟨"x", "Alice", 1, 2, "active", 3⟩,
          lastPoll := [] } []).view.displayed) ∧
    (([] : List ClientIncident).map (fun inc => inc._id) = []) := by
  decide
